import Mathlib

/-!
Verification development for the extraction-and-aggregation engine of the
repository: the multi-strategy JSON extractors (`robust_extract_json` in
`andre.py` / `updating_excel.py`, `andre1.py`, `andre2.py`), the pydantic
record validation of `andre1.py`, and the pagination/deduplication loop
`iterative_search_pipeline` of `andre2.py`.

The Python code is embedded shallowly:
* JSON values (the results of `json.loads`) are the inductive type `Json`;
  the Python `json` module maps JSON `null` to Python `None`, so `Json.null`
  plays both roles.
* `json.loads` is modelled by `json_loads` / `jsonLoadsL`, a recursive-descent
  parser for the JSON grammar restricted to integer numerals (the scripts only
  ever exchange strings, objects and arrays; floats are out of scope, and the
  model rejects numerals with a fraction or exponent rather than misparsing
  them).
* Python string operations (`str.strip`, `str.splitlines`, `str.startswith`,
  `str.find`, `str.rfind`, slicing, `"\n".join`) are modelled over `List Char`.
* The network call inside `search_pipeline` is the external collaborator: it is
  injected as a function `req : Nat → Nat → Option String` returning the raw
  reply text of a cycle, or `none` for a transport-level failure (the
  `except requests.RequestException` / streaming-error paths, which make
  `search_pipeline` return `None`).
* The only unhandled Python exception reachable in the aggregation loop is the
  `AttributeError` raised by `entry.get(...)` when a parsed batch entry is not
  a dict; fallible code therefore returns `Except PyErr`.
* The loop itself is given a fuel parameter: `none` means the loop has not
  terminated within `fuel` cycles, `some r` means it terminated with outcome
  `r` (a normal return or an uncaught exception).
-/

/-- Value produced by Python's `json.loads`: JSON null (= Python `None`),
booleans, integer numbers, strings, arrays and objects.  Objects keep their
key/value pairs in source order; `json.loads` lets a later duplicate key win,
which the lookup function `pyGetOpt` reproduces. -/
inductive Json where
  | null
  | bool (b : Bool)
  | num (n : Int)
  | str (s : String)
  | arr (elems : List Json)
  | obj (fields : List (String × Json))

mutual

/-- Decidable equality for `Json` (structural, matching Python `==` on the
string/object/array values the scripts compare). -/
def Json.decEq : (a b : Json) → Decidable (a = b)
  | .null, .null => isTrue rfl
  | .bool a, .bool b =>
      if h : a = b then isTrue (by rw [h])
      else isFalse (fun hh => h (Json.bool.inj hh))
  | .num a, .num b =>
      if h : a = b then isTrue (by rw [h])
      else isFalse (fun hh => h (Json.num.inj hh))
  | .str a, .str b =>
      if h : a = b then isTrue (by rw [h])
      else isFalse (fun hh => h (Json.str.inj hh))
  | .arr a, .arr b =>
      match Json.decEqArr a b with
      | isTrue h => isTrue (by rw [h])
      | isFalse h => isFalse (fun hh => h (Json.arr.inj hh))
  | .obj a, .obj b =>
      match Json.decEqObj a b with
      | isTrue h => isTrue (by rw [h])
      | isFalse h => isFalse (fun hh => h (Json.obj.inj hh))
  | .null, .bool _ => isFalse (fun h => Json.noConfusion h)
  | .null, .num _ => isFalse (fun h => Json.noConfusion h)
  | .null, .str _ => isFalse (fun h => Json.noConfusion h)
  | .null, .arr _ => isFalse (fun h => Json.noConfusion h)
  | .null, .obj _ => isFalse (fun h => Json.noConfusion h)
  | .bool _, .null => isFalse (fun h => Json.noConfusion h)
  | .bool _, .num _ => isFalse (fun h => Json.noConfusion h)
  | .bool _, .str _ => isFalse (fun h => Json.noConfusion h)
  | .bool _, .arr _ => isFalse (fun h => Json.noConfusion h)
  | .bool _, .obj _ => isFalse (fun h => Json.noConfusion h)
  | .num _, .null => isFalse (fun h => Json.noConfusion h)
  | .num _, .bool _ => isFalse (fun h => Json.noConfusion h)
  | .num _, .str _ => isFalse (fun h => Json.noConfusion h)
  | .num _, .arr _ => isFalse (fun h => Json.noConfusion h)
  | .num _, .obj _ => isFalse (fun h => Json.noConfusion h)
  | .str _, .null => isFalse (fun h => Json.noConfusion h)
  | .str _, .bool _ => isFalse (fun h => Json.noConfusion h)
  | .str _, .num _ => isFalse (fun h => Json.noConfusion h)
  | .str _, .arr _ => isFalse (fun h => Json.noConfusion h)
  | .str _, .obj _ => isFalse (fun h => Json.noConfusion h)
  | .arr _, .null => isFalse (fun h => Json.noConfusion h)
  | .arr _, .bool _ => isFalse (fun h => Json.noConfusion h)
  | .arr _, .num _ => isFalse (fun h => Json.noConfusion h)
  | .arr _, .str _ => isFalse (fun h => Json.noConfusion h)
  | .arr _, .obj _ => isFalse (fun h => Json.noConfusion h)
  | .obj _, .null => isFalse (fun h => Json.noConfusion h)
  | .obj _, .bool _ => isFalse (fun h => Json.noConfusion h)
  | .obj _, .num _ => isFalse (fun h => Json.noConfusion h)
  | .obj _, .str _ => isFalse (fun h => Json.noConfusion h)
  | .obj _, .arr _ => isFalse (fun h => Json.noConfusion h)

/-- Decidable equality for JSON array element lists. -/
def Json.decEqArr : (a b : List Json) → Decidable (a = b)
  | [], [] => isTrue rfl
  | [], _ :: _ => isFalse (fun h => List.noConfusion h)
  | _ :: _, [] => isFalse (fun h => List.noConfusion h)
  | x :: xs, y :: ys =>
      match Json.decEq x y with
      | isFalse h1 => isFalse (fun h => h1 (List.cons.inj h).1)
      | isTrue h1 =>
        match Json.decEqArr xs ys with
        | isTrue h2 => isTrue (by rw [h1, h2])
        | isFalse h2 => isFalse (fun h => h2 (List.cons.inj h).2)

/-- Decidable equality for JSON object field lists. -/
def Json.decEqObj : (a b : List (String × Json)) → Decidable (a = b)
  | [], [] => isTrue rfl
  | [], _ :: _ => isFalse (fun h => List.noConfusion h)
  | _ :: _, [] => isFalse (fun h => List.noConfusion h)
  | (k1, v1) :: xs, (k2, v2) :: ys =>
      if h1 : k1 = k2 then
        match Json.decEq v1 v2 with
        | isFalse hv =>
            isFalse (fun h => hv (congrArg Prod.snd (List.cons.inj h).1))
        | isTrue hv =>
          match Json.decEqObj xs ys with
          | isTrue h2 => isTrue (by rw [h1, hv, h2])
          | isFalse h2 => isFalse (fun h => h2 (List.cons.inj h).2)
      else isFalse (fun h => h1 (congrArg Prod.fst (List.cons.inj h).1))

end

instance : DecidableEq Json := Json.decEq

/-- Uncaught Python exceptions reachable inside the aggregation loop:
`AttributeError`, raised by `entry.get(...)` when a parsed batch entry is not
a dict. -/
inductive PyErr where
  | attributeError
deriving DecidableEq

/-- Decidable equality for `Except` outcomes. -/
def exceptDecEq {ε α : Type} [DecidableEq ε] [DecidableEq α] :
    (a b : Except ε α) → Decidable (a = b)
  | .error a, .error b =>
      if h : a = b then isTrue (by rw [h])
      else isFalse (fun hh => h (Except.error.inj hh))
  | .ok a, .ok b =>
      if h : a = b then isTrue (by rw [h])
      else isFalse (fun hh => h (Except.ok.inj hh))
  | .error _, .ok _ => isFalse (fun h => Except.noConfusion h)
  | .ok _, .error _ => isFalse (fun h => Except.noConfusion h)

instance {ε α : Type} [DecidableEq ε] [DecidableEq α] : DecidableEq (Except ε α) :=
  exceptDecEq

/-- Whitespace in the sense of Python `str.strip()` (ASCII part: space, tab,
newline, carriage return, vertical tab, form feed). -/
def pyIsSpace (c : Char) : Bool :=
  c == ' ' || c == '\t' || c == '\n' || c == '\r' || c == Char.ofNat 11 || c == Char.ofNat 12

/-- Python `str.strip()` over a character list: drop whitespace at both ends. -/
def pyStrip (cs : List Char) : List Char :=
  ((cs.dropWhile pyIsSpace).reverse.dropWhile pyIsSpace).reverse

/-- Python `str.startswith(pat)`: the second list is a prefix of the first. -/
def startsWithL : List Char → List Char → Bool
  | _, [] => true
  | [], _ :: _ => false
  | c :: cs, p :: ps => c == p && startsWithL cs ps

/-- Worker for `pySplitlines`: `cur` is the reversed current line. -/
def pySplitlinesGo : List Char → List Char → List (List Char)
  | cur, [] => if cur.isEmpty then [] else [cur.reverse]
  | cur, '\r' :: '\n' :: rest => cur.reverse :: pySplitlinesGo [] rest
  | cur, '\r' :: rest => cur.reverse :: pySplitlinesGo [] rest
  | cur, '\n' :: rest => cur.reverse :: pySplitlinesGo [] rest
  | cur, c :: rest => pySplitlinesGo (c :: cur) rest

/-- Python `str.splitlines()` restricted to the line terminators that occur in
this code base: `\n`, `\r` and `\r\n`.  Terminators are not kept; a final
unterminated segment is kept only when nonempty. -/
def pySplitlines (cs : List Char) : List (List Char) :=
  pySplitlinesGo [] cs

/-- Python `"\n".join(lines)`. -/
def joinNL : List (List Char) → List Char
  | [] => []
  | [l] => l
  | l :: rest => l ++ '\n' :: joinNL rest

/-- Python `str.find(c)` for a single-character needle: index of the first
occurrence, `none` for `-1`. -/
def pyFind (cs : List Char) (c : Char) : Option Nat :=
  match cs with
  | [] => none
  | x :: rest => if x = c then some 0 else (pyFind rest c).map (· + 1)

/-- Python `str.rfind(c)` for a single-character needle: index of the last
occurrence, `none` for `-1`. -/
def pyRfind (cs : List Char) (c : Char) : Option Nat :=
  match cs with
  | [] => none
  | x :: rest =>
    match pyRfind rest c with
    | some i => some (i + 1)
    | none => if x = c then some 0 else none

/-- Python slice `s[start:stop]` (half-open). -/
def pySlice (cs : List Char) (start stop : Nat) : List Char :=
  (cs.drop start).take (stop - start)

/-- Whitespace in the sense of the JSON grammar used by `json.loads`. -/
def jsonWs (c : Char) : Bool :=
  c == ' ' || c == '\t' || c == '\n' || c == '\r'

/-- Skip JSON whitespace. -/
def skipJsonWs (cs : List Char) : List Char :=
  cs.dropWhile jsonWs

/-- The opening-brace character (written via its code point). -/
def lbrace : Char := Char.ofNat 123

/-- The closing-brace character (written via its code point). -/
def rbrace : Char := Char.ofNat 125

/-- The backtick character (written via its code point). -/
def btick : Char := Char.ofNat 96

/-- The double-quote character (written via its code point). -/
def qmark : Char := Char.ofNat 34

/-- Value of a hexadecimal digit. -/
def hexVal (c : Char) : Option Nat :=
  if '0' ≤ c ∧ c ≤ '9' then some (c.toNat - 48)
  else if 'a' ≤ c ∧ c ≤ 'f' then some (c.toNat - 97 + 10)
  else if 'A' ≤ c ∧ c ≤ 'F' then some (c.toNat - 65 + 10)
  else none

/-- Value of a decimal digit. -/
def digitVal (c : Char) : Option Nat :=
  if '0' ≤ c ∧ c ≤ '9' then some (c.toNat - 48) else none

/-- Body of a JSON string after the opening quote: returns the decoded
content and the rest of the input after the closing quote.  Escapes follow
`json.loads`: the eight single-character escapes and `\uXXXX`; any other
escape, a raw control character, or an unterminated string is an error. -/
def parseStringBody : List Char → Option (List Char × List Char)
  | [] => none
  | c :: rest =>
    if c = qmark then some ([], rest)
    else if c = '\\' then
      match rest with
      | [] => none
      | e :: rest2 =>
        if e = qmark then (parseStringBody rest2).map (fun p => (qmark :: p.1, p.2))
        else if e = '\\' then (parseStringBody rest2).map (fun p => ('\\' :: p.1, p.2))
        else if e = '/' then (parseStringBody rest2).map (fun p => ('/' :: p.1, p.2))
        else if e = 'b' then (parseStringBody rest2).map (fun p => (Char.ofNat 8 :: p.1, p.2))
        else if e = 'f' then (parseStringBody rest2).map (fun p => (Char.ofNat 12 :: p.1, p.2))
        else if e = 'n' then (parseStringBody rest2).map (fun p => ('\n' :: p.1, p.2))
        else if e = 'r' then (parseStringBody rest2).map (fun p => ('\r' :: p.1, p.2))
        else if e = 't' then (parseStringBody rest2).map (fun p => ('\t' :: p.1, p.2))
        else if e = 'u' then
          match rest2 with
          | h1 :: h2 :: h3 :: h4 :: rest3 =>
            match hexVal h1, hexVal h2, hexVal h3, hexVal h4 with
            | some a, some b, some c3, some d =>
              (parseStringBody rest3).map
                (fun p => (Char.ofNat (((a * 16 + b) * 16 + c3) * 16 + d) :: p.1, p.2))
            | _, _, _, _ => none
          | _ => none
        else none
    else if c.toNat < 32 then none
    else (parseStringBody rest).map (fun p => (c :: p.1, p.2))

/-- Longest leading run of decimal digits, with the rest of the input. -/
def takeDigits : List Char → List Char × List Char
  | [] => ([], [])
  | c :: rest =>
    if (digitVal c).isSome then
      match takeDigits rest with
      | (ds, r) => (c :: ds, r)
    else ([], c :: rest)

/-- Decimal value of a digit run (left fold). -/
def digitsToNat (acc : Nat) : List Char → Nat
  | [] => acc
  | c :: rest => digitsToNat (acc * 10 + (c.toNat - 48)) rest

/-- JSON integer numeral: optional minus sign, digit run, no redundant
leading zero.  A following `.`, `e` or `E` would make it a float, which the
scripts never produce or consume; the model rejects it rather than
misparsing. -/
def parseNumber (cs : List Char) : Option (Int × List Char) :=
  let p := match cs with
    | '-' :: rest => (true, rest)
    | _ => (false, cs)
  match takeDigits p.2 with
  | ([], _) => none
  | (d :: ds, rest) =>
    if d = '0' && !ds.isEmpty then none
    else
      match rest with
      | '.' :: _ => none
      | 'e' :: _ => none
      | 'E' :: _ => none
      | _ =>
        let n : Int := Int.ofNat (digitsToNat 0 (d :: ds))
        some (if p.1 then -n else n, rest)

mutual

/-- Recursive-descent parser for one JSON value (fuel-indexed so that all
recursion is structural and kernel-reducible). -/
def parseVal : Nat → List Char → Option (Json × List Char)
  | 0, _ => none
  | fuel + 1, cs =>
    match skipJsonWs cs with
    | [] => none
    | c :: rest =>
      if c = '[' then parseArrElems fuel rest
      else if c = lbrace then parseObjFields fuel rest
      else if c = qmark then
        (parseStringBody rest).map (fun p => (Json.str (String.mk p.1), p.2))
      else if c = 't' then
        if startsWithL rest ['r', 'u', 'e'] then some (Json.bool true, rest.drop 3) else none
      else if c = 'f' then
        if startsWithL rest ['a', 'l', 's', 'e'] then some (Json.bool false, rest.drop 4) else none
      else if c = 'n' then
        if startsWithL rest ['u', 'l', 'l'] then some (Json.null, rest.drop 3) else none
      else (parseNumber (c :: rest)).map (fun p => (Json.num p.1, p.2))

/-- Elements of a JSON array, after the opening bracket. -/
def parseArrElems : Nat → List Char → Option (Json × List Char)
  | 0, _ => none
  | fuel + 1, cs =>
    match skipJsonWs cs with
    | ']' :: rest => some (Json.arr [], rest)
    | cs2 =>
      match parseVal fuel cs2 with
      | none => none
      | some (v, r) => parseArrTail fuel [v] r

/-- Remaining elements of a JSON array; `acc` holds parsed elements in
reverse. -/
def parseArrTail : Nat → List Json → List Char → Option (Json × List Char)
  | 0, _, _ => none
  | fuel + 1, acc, cs =>
    match skipJsonWs cs with
    | ',' :: rest =>
      match parseVal fuel rest with
      | none => none
      | some (v, r) => parseArrTail fuel (v :: acc) r
    | ']' :: rest => some (Json.arr acc.reverse, rest)
    | _ => none

/-- Fields of a JSON object, after the opening brace. -/
def parseObjFields : Nat → List Char → Option (Json × List Char)
  | 0, _ => none
  | fuel + 1, cs =>
    match skipJsonWs cs with
    | [] => none
    | c :: rest =>
      if c = rbrace then some (Json.obj [], rest)
      else if c = qmark then
        match parseStringBody rest with
        | none => none
        | some (key, r1) =>
          match skipJsonWs r1 with
          | ':' :: r2 =>
            match parseVal fuel r2 with
            | none => none
            | some (v, r3) => parseObjTail fuel [(String.mk key, v)] r3
          | _ => none
      else none

/-- Remaining fields of a JSON object; `acc` holds parsed pairs in reverse. -/
def parseObjTail : Nat → List (String × Json) → List Char → Option (Json × List Char)
  | 0, _, _ => none
  | fuel + 1, acc, cs =>
    match skipJsonWs cs with
    | [] => none
    | c :: rest =>
      if c = ',' then
        match skipJsonWs rest with
        | c2 :: r0 =>
          if c2 = qmark then
            match parseStringBody r0 with
            | none => none
            | some (key, r1) =>
              match skipJsonWs r1 with
              | ':' :: r2 =>
                match parseVal fuel r2 with
                | none => none
                | some (v, r3) => parseObjTail fuel ((String.mk key, v) :: acc) r3
              | _ => none
          else none
        | [] => none
      else if c = rbrace then some (Json.obj acc.reverse, rest)
      else none

end

/-- Python `json.loads` over a character list: parse one JSON value and
require only whitespace after it; on any parse error (`JSONDecodeError`)
return `none`. -/
def jsonLoadsL (cs : List Char) : Option Json :=
  match parseVal (2 * cs.length + 2) cs with
  | some (v, rest) => if (skipJsonWs rest).isEmpty then some v else none
  | none => none

/-- Python `json.loads` on a string. -/
def json_loads (s : String) : Option Json :=
  jsonLoadsL s.data


/-- Marker prefix stripped by `andre2.robust_extract_json`. -/
def thinkMarker : List Char := ['<', 't', 'h', 'i', 'n', 'k', '>']

/-- Three backticks, the code-fence delimiter of the extraction regex. -/
def fenceChars : List Char := [btick, btick, btick]

/-- The optional `json` tag after an opening fence. -/
def jsonTag : List Char := ['j', 's', 'o', 'n']

/-- Input remaining strictly after the first triple-backtick fence, or `none`
when there is no fence. -/
def afterFirstFence : List Char → Option (List Char)
  | [] => none
  | c :: rest =>
    if startsWithL (c :: rest) fenceChars then some (rest.drop 2)
    else afterFirstFence rest

/-- Characters before the next triple-backtick fence, or `none` when no fence
follows. -/
def upToFence : List Char → Option (List Char)
  | [] => none
  | c :: rest =>
    if startsWithL (c :: rest) fenceChars then some []
    else (upToFence rest).map (c :: ·)

/-- Group 1 of `re.search` for the fenced-block pattern (three backticks, an
optional `json` tag, lazily matched nonempty content, three backticks) used by
every `robust_extract_json` variant: the content between the first fence and
the next one, with the whitespace absorbed by the pattern's greedy `\s*`
stripped.  The regex's lazy group keeps a single whitespace character when the
interior is entirely whitespace, and backtracks into the `json` tag when the
interior after the tag is empty; in both corner cases the candidate fails
`json.loads` exactly as the `none` / empty result here fails it, so the model
is outcome-equivalent. -/
def fencedCandidate (cs : List Char) : Option (List Char) :=
  match afterFirstFence cs with
  | none => none
  | some afterOpen =>
    let body := if startsWithL afterOpen jsonTag then afterOpen.drop 4 else afterOpen
    match upToFence body with
    | none => none
    | some interior => if interior.isEmpty then none else some (pyStrip interior)

/-- Substring from the first `[` to the last `]` inclusive, when both exist
with the `]` strictly later — the array bracket-span fallback of
`andre2.robust_extract_json` (`cleaned_text.find("[")`, `cleaned_text.rfind("]")`). -/
def arraySpanCandidate (cs : List Char) : Option (List Char) :=
  match pyFind cs '[', pyRfind cs ']' with
  | some s, some e => if s < e then some (pySlice cs s (e + 1)) else none
  | _, _ => none

/-- Substring from the first opening brace to the last closing brace
inclusive, when both exist with the closing brace strictly later — the object
brace-span fallback of the `andre.py` / `andre1.py` / `updating_excel.py`
extractors (`response_text.find`, `response_text.rfind`). -/
def braceSpanCandidate (cs : List Char) : Option (List Char) :=
  match pyFind cs lbrace, pyRfind cs rbrace with
  | some s, some e => if s < e then some (pySlice cs s (e + 1)) else none
  | _, _ => none

/-- Aggregated records are the dicts appended by the loop; a dict is its
field list. -/
abbrev Obj := List (String × Json)

/-- Lookup in a parsed JSON object with `json.loads` dict semantics: a later
duplicate key overwrites an earlier one, so the last binding wins; `none`
when the key is absent. -/
def pyGetOpt : Obj → String → Option Json
  | [], _ => none
  | (k0, v0) :: rest, k =>
    match pyGetOpt rest k with
    | some r => some r
    | none => if k0 = k then some v0 else none

/-- Python `dict.get(k)`: the stored value, or `None` (= `Json.null`, since
`json.loads` decodes JSON `null` to Python `None`) when the key is absent. -/
def pyDictGet (o : Obj) (k : String) : Json :=
  (pyGetOpt o k).getD Json.null

namespace andre

/-- Extraction cascade of `andre.py` (`robust_extract_json`, lines 11–28) and
identically of `updating_excel.py` (lines 12–29): a fenced code block first,
then the substring from the first opening brace to the last closing brace; each
strategy's `json.JSONDecodeError` is swallowed and `None` is returned when
all fail. -/
def robust_extract_json (s : String) : Option Json :=
  match (fencedCandidate s.data).bind jsonLoadsL with
  | some v => some v
  | none => (braceSpanCandidate s.data).bind jsonLoadsL

end andre

namespace andre1

/-- Extraction cascade of `andre1.py` (`robust_extract_json`, lines 34–58):
the whole stripped text first, then a fenced code block (its candidate
stripped), then the first-to-last brace span (stripped); each strategy's
parse failure falls through to the next. -/
def robust_extract_json (s : String) : Option Json :=
  match jsonLoadsL (pyStrip s.data) with
  | some v => some v
  | none =>
    match ((fencedCandidate s.data).map pyStrip).bind jsonLoadsL with
    | some v => some v
    | none => ((braceSpanCandidate s.data).map pyStrip).bind jsonLoadsL

end andre1

namespace andre2

/-- Line filter of `andre2.robust_extract_json` (lines 17–20): keep the lines
whose stripped form does not start with `<think>`, rejoined with `\n`. -/
def removeThinkLines (cs : List Char) : List Char :=
  joinNL ((pySplitlines cs).filter (fun l => !(startsWithL (pyStrip l) thinkMarker)))

/-- The Text Normalizer of `andre2.py` as a string-level operation. -/
def normalizeText (s : String) : String :=
  String.mk (removeThinkLines s.data)

/-- Extraction cascade of `andre2.py` (`robust_extract_json`, lines 11–41):
remove `<think>` lines, then try a fenced code block, then the substring from
the first `[` to the last `]`; `None` when both fail.  There is no whole-text
parse attempt in this variant. -/
def robust_extract_json (s : String) : Option Json :=
  let cleaned := removeThinkLines s.data
  match (fencedCandidate cleaned).bind jsonLoadsL with
  | some v => some v
  | none => (arraySpanCandidate cleaned).bind jsonLoadsL

/-- Identity key of a candidate record, `andre2.py` line 171:
`(entry.get("Indikation"), entry.get("Wirkstoff"), entry.get("Brandname"))`. -/
def entryKey (o : Obj) : Json × Json × Json :=
  (pyDictGet o "Indikation", pyDictGet o "Wirkstoff", pyDictGet o "Brandname")

/-- The membership test of `andre2.py` line 172: some already-aggregated
record has the candidate's identity key. -/
def sharesKey (acc : List Obj) (k : Json × Json × Json) : Bool :=
  acc.any (fun r => decide (entryKey r = k))

/-- One iteration of the `for entry in result` body, `andre2.py` lines
170–173: compute the identity key and append the entry unless a previous
record shares the key.  `entry.get` on a non-dict batch element raises
`AttributeError`, which no handler catches. -/
def mergeEntry (acc : List Obj) : Json → Except PyErr (List Obj)
  | Json.obj flds =>
    if sharesKey acc (entryKey flds) then Except.ok acc
    else Except.ok (acc ++ [flds])
  | _ => Except.error PyErr.attributeError

/-- The whole `for entry in result` loop over one parsed batch. -/
def mergeEntries (acc : List Obj) : List Json → Except PyErr (List Obj)
  | [] => Except.ok acc
  | e :: es =>
    match mergeEntry acc e with
    | Except.error err => Except.error err
    | Except.ok acc2 => mergeEntries acc2 es

/-- `search_pipeline` of `andre2.py` (lines 43–150) at the core boundary: the
network call and streaming assembly are the injected collaborator `req`
(returning the raw reply text, or `none` on the caught transport/streaming
failures, for which the function returns `None`); an obtained reply is fed to
`robust_extract_json`, whose `None` is likewise passed through. -/
def search_pipeline (req : Nat → Nat → Option String) (numRows offset : Nat) : Option Json :=
  match req numRows offset with
  | none => none
  | some raw => robust_extract_json raw

/-- The `while len(aggregated_results) < max_rows` loop of
`iterative_search_pipeline` (`andre2.py` lines 157–181), fuel-indexed:
`none` means the loop is still running after `fuel` cycles.  Each cycle
requests `remaining` rows at `offset`; a `None` result or a non-list result
breaks; otherwise the batch is merged (which can raise), `offset` advances by
the raw batch length, and a batch shorter than requested breaks. -/
def iterLoop (req : Nat → Nat → Option String) (maxRows : Nat) :
    List Obj → Nat → Nat → Option (Except PyErr (List Obj))
  | _, _, 0 => none
  | acc, offset, fuel + 1 =>
    if acc.length < maxRows then
      match search_pipeline req (maxRows - acc.length) offset with
      | none => some (Except.ok acc)
      | some (Json.arr entries) =>
        match mergeEntries acc entries with
        | Except.error e => some (Except.error e)
        | Except.ok acc2 =>
          if entries.length < maxRows - acc.length then some (Except.ok acc2)
          else iterLoop req maxRows acc2 (offset + entries.length) fuel
      | some _ => some (Except.ok acc)
    else some (Except.ok acc)

/-- `iterative_search_pipeline` of `andre2.py` (lines 152–182): run the
aggregation loop from an empty result list and offset 0, and truncate the
aggregated list to `max_rows` (`aggregated_results[:max_rows]`). -/
def iterative_search_pipeline (req : Nat → Nat → Option String) (maxRows fuel : Nat) :
    Option (Except PyErr (List Obj)) :=
  (iterLoop req maxRows [] 0 fuel).map (fun r => r.map (fun l => l.take maxRows))

end andre2

namespace andre1

/-- Row model of `andre1.py` lines 13–28: every declared field is a required
`str` (no defaults). -/
structure PipelineEntry where
  Indikation : String
  Wirkstoff : String
  Brandname : String
  Produkteigenschaften : String
  Applikationsformen : String
  Lagerungsbedingungen : String
  spezielle_Patientengruppen : String
  Informationen_fuer_Aerzte_Apotheken_und_Patienten : String
  Wirkmechanismus : String
  Kontraindikationen : String
  Nebenwirkungen : String
  Interaktionen : String
  Schulungshinweise : String
  zugelassene_Konkurrenzprodukte : String
  Website : String
deriving DecidableEq

/-- The declared field names of `PipelineEntry`, in declaration order. -/
def fieldNames : List String :=
  ["Indikation", "Wirkstoff", "Brandname", "Produkteigenschaften",
   "Applikationsformen", "Lagerungsbedingungen", "spezielle_Patientengruppen",
   "Informationen_fuer_Aerzte_Apotheken_und_Patienten", "Wirkmechanismus",
   "Kontraindikationen", "Nebenwirkungen", "Interaktionen",
   "Schulungshinweise", "zugelassene_Konkurrenzprodukte", "Website"]

/-- Pydantic's validation of one required `str` field: present and a string
(pydantic v2 does not coerce numbers, booleans or null to `str`, and a field
without a default is required). -/
def getStrField (o : Obj) (k : String) : Option String :=
  match pyGetOpt o k with
  | some (Json.str s) => some s
  | _ => none

/-- Collect the declared fields' string values in order; any missing or
non-string field makes the whole entry fail, as pydantic collects it into a
`ValidationError`.  Keys of the source object that are not declared are never
consulted — pydantic's default config ignores extra fields. -/
def collectStrFields (o : Obj) : List String → Option (List String)
  | [] => some []
  | k :: ks =>
    match getStrField o k, collectStrFields o ks with
    | some v, some vs => some (v :: vs)
    | _, _ => none

/-- `PipelineEntry.model_validate` on one parsed JSON value: a dict with all
fifteen declared fields present as strings yields the entry; anything else is
a `ValidationError` (`none`). -/
def model_validate_entry (j : Json) : Option PipelineEntry :=
  match j with
  | Json.obj o =>
    match collectStrFields o fieldNames with
    | some [a1, a2, a3, a4, a5, a6, a7, a8, a9, a10, a11, a12, a13, a14, a15] =>
        some ⟨a1, a2, a3, a4, a5, a6, a7, a8, a9, a10, a11, a12, a13, a14, a15⟩
    | _ => none
  | _ => none

/-- Validation of the elements of the root list: every element must validate,
or the whole `PipelineEntries.model_validate` call raises `ValidationError`
(`andre1.py` lines 130–136, where the error is caught and `None` returned). -/
def validateEntries : List Json → Option (List PipelineEntry)
  | [] => some []
  | e :: es =>
    match model_validate_entry e, validateEntries es with
    | some r, some rs => some (r :: rs)
    | _, _ => none

/-- `PipelineEntries.model_validate` (RootModel of `List [PipelineEntry]`):
the top-level value must be a list and every element must validate. -/
def model_validate (j : Json) : Option (List PipelineEntry) :=
  match j with
  | Json.arr es => validateEntries es
  | _ => none

end andre1

/-- Request collaborator that always reports a transport failure (the
`requests.RequestException` path). -/
def reqFail : Nat → Nat → Option String :=
  fun _ _ => none

/-- Request collaborator whose reply parses to the JSON array `[1, 2]` — a
batch of non-object entries. -/
def reqNums : Nat → Nat → Option String :=
  fun _ _ => some "[1, 2]"

/-- Request collaborator that always returns a reply with exactly as many
empty-object records as were requested: two duplicates when asked for two
rows, one when asked for one.  Every record has the identity key
`(None, None, None)`, so after the first acceptance every further record is
a duplicate while each batch still has the full requested length. -/
def reqDup : Nat → Nat → Option String :=
  fun n _ => some (if n = 1 then "[\x7b\x7d]" else "[\x7b\x7d, \x7b\x7d]")

/-- Request collaborator returning three records, the second a duplicate of
the first. -/
def reqThree : Nat → Nat → Option String :=
  fun _ _ => some
    "[\x7b\"Indikation\": \"x\"\x7d, \x7b\"Indikation\": \"x\"\x7d, \x7b\"Indikation\": \"y\"\x7d]"

/-- A source object carrying all declared fields except `Website`. -/
def sampleMissingWebsite : Obj :=
  [("Indikation", Json.str "i"), ("Wirkstoff", Json.str "w"),
   ("Brandname", Json.str "b"), ("Produkteigenschaften", Json.str "p"),
   ("Applikationsformen", Json.str "a"), ("Lagerungsbedingungen", Json.str "l"),
   ("spezielle_Patientengruppen", Json.str "s"),
   ("Informationen_fuer_Aerzte_Apotheken_und_Patienten", Json.str "n"),
   ("Wirkmechanismus", Json.str "m"), ("Kontraindikationen", Json.str "k"),
   ("Nebenwirkungen", Json.str "e"), ("Interaktionen", Json.str "t"),
   ("Schulungshinweise", Json.str "u"), ("zugelassene_Konkurrenzprodukte", Json.str "z")]

/-- A source object carrying every declared field as a string. -/
def sampleComplete : Obj :=
  sampleMissingWebsite ++ [("Website", Json.str "v")]

/-- The record that validating `sampleComplete` produces. -/
def sampleCompleteRec : andre1.PipelineEntry :=
  ⟨"i", "w", "b", "p", "a", "l", "s", "n", "m", "k", "e", "t", "u", "z", "v"⟩


/-- A parsed batch value whose entries (if it is an array) are all objects;
non-arrays are unconstrained because the loop breaks on them before calling
`entry.get`. -/
def entriesAllObjs : Json → Prop
  | Json.arr es => ∀ e ∈ es, ∃ f : Obj, e = Json.obj f
  | _ => True

/-- A candidate record that carries none of the three identity-key fields. -/
def lacksIdKeys (o : Obj) : Bool :=
  (pyGetOpt o "Indikation").isNone && (pyGetOpt o "Wirkstoff").isNone
    && (pyGetOpt o "Brandname").isNone

theorem splitlinesGo_break_free : ∀ (cur cs : List Char), '\n' ∉ cur → '\r' ∉ cur →
    ∀ l ∈ pySplitlinesGo cur cs, '\n' ∉ l ∧ '\r' ∉ l := by
  intro cur cs
  induction cur, cs using pySplitlinesGo.induct with
  | case1 cur hemp =>
    intro _ _ l hl
    simp only [pySplitlinesGo, if_pos hemp] at hl
    simp at hl
  | case2 cur hemp =>
    intro h1 h2 l hl
    simp only [pySplitlinesGo, if_neg hemp] at hl
    simp at hl
    subst hl
    constructor <;> simp [h1, h2]
  | case3 cur rest ih =>
    intro h1 h2 l hl
    simp only [pySplitlinesGo] at hl
    rcases List.mem_cons.mp hl with he | he
    · subst he; constructor <;> simp [h1, h2]
    · exact ih (by simp) (by simp) l he
  | case4 cur rest hne ih =>
    intro h1 h2 l hl
    rw [pySplitlinesGo] at hl
    rotate_left
    · exact hne
    rcases List.mem_cons.mp hl with he | he
    · subst he; constructor <;> simp [h1, h2]
    · exact ih (by simp) (by simp) l he
  | case5 cur rest ih =>
    intro h1 h2 l hl
    simp only [pySplitlinesGo] at hl
    rcases List.mem_cons.mp hl with he | he
    · subst he; constructor <;> simp [h1, h2]
    · exact ih (by simp) (by simp) l he
  | case6 cur c rest hne1 hne2 hne3 ih =>
    intro h1 h2 l hl
    rw [pySplitlinesGo] at hl
    rotate_left
    · exact hne1
    · exact hne2
    · exact hne3
    have hc1 : '\n' ∉ c :: cur := by
      intro hm
      rcases List.mem_cons.mp hm with he | he
      · exact hne3 he.symm
      · exact h1 he
    have hc2 : '\r' ∉ c :: cur := by
      intro hm
      rcases List.mem_cons.mp hm with he | he
      · exact hne2 he.symm
      · exact h2 he
    exact ih hc1 hc2 l hl

theorem splitlines_break_free (cs : List Char) :
    ∀ l ∈ pySplitlines cs, '\n' ∉ l ∧ '\r' ∉ l :=
  splitlinesGo_break_free [] cs (by simp) (by simp)

theorem splitlinesGo_append_newline :
    ∀ (a cur t : List Char), '\n' ∉ a → '\r' ∉ a →
      pySplitlinesGo cur (a ++ '\n' :: t) = (cur.reverse ++ a) :: pySplitlinesGo [] t := by
  intro a
  induction a with
  | nil =>
    intro cur t _ _
    simp only [List.nil_append, pySplitlinesGo, List.append_nil]
  | cons c a' ih =>
    intro cur t h1 h2
    have hcn : ¬ c = '\n' := fun he => h1 (he ▸ List.mem_cons_self c a')
    have hcr : ¬ c = '\r' := fun he => h2 (he ▸ List.mem_cons_self c a')
    have h1' : '\n' ∉ a' := fun hm => h1 (List.mem_cons_of_mem c hm)
    have h2' : '\r' ∉ a' := fun hm => h2 (List.mem_cons_of_mem c hm)
    show pySplitlinesGo cur (c :: (a' ++ '\n' :: t)) = _
    rw [pySplitlinesGo]
    rotate_left
    · exact fun _ he _ => hcr he
    · exact fun he => hcr he
    · exact fun he => hcn he
    rw [ih (c :: cur) t h1' h2']
    simp

theorem splitlinesGo_no_newline :
    ∀ (a cur : List Char), '\n' ∉ a → '\r' ∉ a →
      pySplitlinesGo cur a
        = if (cur.reverse ++ a).isEmpty then [] else [cur.reverse ++ a] := by
  intro a
  induction a with
  | nil =>
    intro cur _ _
    rw [pySplitlinesGo]
    cases cur <;> simp
  | cons c a' ih =>
    intro cur h1 h2
    have hcn : ¬ c = '\n' := fun he => h1 (he ▸ List.mem_cons_self c a')
    have hcr : ¬ c = '\r' := fun he => h2 (he ▸ List.mem_cons_self c a')
    have h1' : '\n' ∉ a' := fun hm => h1 (List.mem_cons_of_mem c hm)
    have h2' : '\r' ∉ a' := fun hm => h2 (List.mem_cons_of_mem c hm)
    rw [pySplitlinesGo]
    rotate_left
    · exact fun _ he _ => hcr he
    · exact fun he => hcr he
    · exact fun he => hcn he
    rw [ih (c :: cur) h1' h2']
    simp

theorem splitlines_joinNL_subset :
    ∀ ls : List (List Char), (∀ l ∈ ls, '\n' ∉ l ∧ '\r' ∉ l) →
      ∀ x ∈ pySplitlines (joinNL ls), x ∈ ls := by
  intro ls
  induction ls using joinNL.induct with
  | case1 =>
    intro _ x hx
    simp [pySplitlines, pySplitlinesGo, joinNL] at hx
  | case2 l =>
    intro h x hx
    have hl := h l (List.mem_singleton_self l)
    rw [joinNL] at hx
    unfold pySplitlines at hx
    rw [splitlinesGo_no_newline l [] hl.1 hl.2] at hx
    by_cases he : (List.reverse [] ++ l).isEmpty
    · rw [if_pos he] at hx
      simp at hx
    · rw [if_neg he] at hx
      simp at hx
      simp [hx]
  | case3 l rest hne ih =>
    intro h x hx
    have hl := h l (List.mem_cons_self l rest)
    rw [joinNL.eq_3 l rest hne] at hx
    unfold pySplitlines at hx
    rw [splitlinesGo_append_newline l [] (joinNL rest) hl.1 hl.2] at hx
    rcases List.mem_cons.mp hx with he | he
    · subst he; simp
    · exact List.mem_cons_of_mem l
        (ih (fun y hy => h y (List.mem_cons_of_mem l hy)) x he)

theorem sharesKey_iff (acc : List Obj) (k : Json × Json × Json) :
    andre2.sharesKey acc k = true ↔ ∃ r ∈ acc, andre2.entryKey r = k := by
  simp [andre2.sharesKey, List.any_eq_true]

theorem mergeEntry_obj (acc : List Obj) (flds : Obj) :
    andre2.mergeEntry acc (Json.obj flds)
      = if andre2.sharesKey acc (andre2.entryKey flds) then Except.ok acc
        else Except.ok (acc ++ [flds]) := rfl

theorem mergeEntry_pairwise (acc acc2 : List Obj) (e : Json)
    (hp : acc.Pairwise (fun a b => andre2.entryKey a ≠ andre2.entryKey b))
    (h : andre2.mergeEntry acc e = Except.ok acc2) :
    acc2.Pairwise (fun a b => andre2.entryKey a ≠ andre2.entryKey b) := by
  cases e with
  | obj flds =>
    rw [mergeEntry_obj] at h
    by_cases hs : andre2.sharesKey acc (andre2.entryKey flds) = true
    · rw [if_pos hs] at h
      have he := Except.ok.inj h
      subst he
      exact hp
    · rw [if_neg hs] at h
      have he := Except.ok.inj h
      subst he
      have hno : ¬ ∃ r ∈ acc, andre2.entryKey r = andre2.entryKey flds := by
        rw [← sharesKey_iff]
        exact hs
      rw [List.pairwise_append]
      refine ⟨hp, List.pairwise_singleton _ _, ?_⟩
      intro x hx y hy
      rw [List.mem_singleton] at hy
      subst hy
      exact fun hk => hno ⟨x, hx, hk⟩
  | null => exact Except.noConfusion h
  | bool b => exact Except.noConfusion h
  | num n => exact Except.noConfusion h
  | str s => exact Except.noConfusion h
  | arr es => exact Except.noConfusion h

theorem mergeEntries_pairwise : ∀ (es : List Json) (acc acc2 : List Obj),
    acc.Pairwise (fun a b => andre2.entryKey a ≠ andre2.entryKey b) →
    andre2.mergeEntries acc es = Except.ok acc2 →
    acc2.Pairwise (fun a b => andre2.entryKey a ≠ andre2.entryKey b)
  | [], acc, acc2, hp, h => by
    have he := Except.ok.inj h
    subst he
    exact hp
  | e :: es, acc, acc2, hp, h => by
    cases hm : andre2.mergeEntry acc e with
    | error err =>
      unfold andre2.mergeEntries at h
      rw [hm] at h
      exact Except.noConfusion h
    | ok accm =>
      unfold andre2.mergeEntries at h
      rw [hm] at h
      exact mergeEntries_pairwise es accm acc2 (mergeEntry_pairwise acc accm e hp hm) h

theorem iterLoop_pairwise : ∀ (fuel : Nat) (req : Nat → Nat → Option String)
    (maxRows : Nat) (acc : List Obj) (offset : Nat) (res : List Obj),
    acc.Pairwise (fun a b => andre2.entryKey a ≠ andre2.entryKey b) →
    andre2.iterLoop req maxRows acc offset fuel = some (Except.ok res) →
    res.Pairwise (fun a b => andre2.entryKey a ≠ andre2.entryKey b)
  | 0, req, maxRows, acc, offset, res, hp, h => by
    rw [andre2.iterLoop] at h
    exact Option.noConfusion h
  | fuel + 1, req, maxRows, acc, offset, res, hp, h => by
    rw [andre2.iterLoop] at h
    split at h
    · split at h
      · simp only [Option.some.injEq, Except.ok.injEq] at h
        subst h
        exact hp
      · rename_i entries _hsp
        split at h
        · simp at h
        · rename_i acc2 hm
          have hp2 := mergeEntries_pairwise entries acc acc2 hp hm
          split at h
          · simp only [Option.some.injEq, Except.ok.injEq] at h
            subst h
            exact hp2
          · exact iterLoop_pairwise fuel req maxRows acc2 (offset + entries.length) res hp2 h
      · simp only [Option.some.injEq, Except.ok.injEq] at h
        subst h
        exact hp
    · simp only [Option.some.injEq, Except.ok.injEq] at h
      subst h
      exact hp

theorem iterative_ok_elim (req : Nat → Nat → Option String) (maxRows fuel : Nat)
    (l : List Obj)
    (h : andre2.iterative_search_pipeline req maxRows fuel = some (Except.ok l)) :
    ∃ full : List Obj,
      andre2.iterLoop req maxRows [] 0 fuel = some (Except.ok full)
        ∧ l = full.take maxRows := by
  unfold andre2.iterative_search_pipeline at h
  cases hL : andre2.iterLoop req maxRows [] 0 fuel with
  | none => rw [hL] at h; exact Option.noConfusion h
  | some r =>
    rw [hL] at h
    cases r with
    | error e => simp [Except.map] at h
    | ok full =>
      simp only [Option.map_some', Option.some.injEq] at h
      simp only [Except.map, Except.ok.injEq] at h
      exact ⟨full, rfl, h.symm⟩

/-- C3: in every normally terminating run of `iterative_search_pipeline` no
two elements of the final ResultSet share an identity key, where the identity
key is the `(Indikation, Wirkstoff, Brandname)` triple of `entry.get` values
compared by exact (case-sensitive, unnormalized) equality; and during merging
a candidate dict is rejected (the aggregated list unchanged) exactly when an
already-accepted record shares its key, and appended otherwise. -/
theorem andre2_identity_key_uniqueness :
    (∀ (acc : List Obj) (flds : Obj),
        ((∃ r ∈ acc, andre2.entryKey r = andre2.entryKey flds) →
            andre2.mergeEntry acc (Json.obj flds) = Except.ok acc)
      ∧ (¬ (∃ r ∈ acc, andre2.entryKey r = andre2.entryKey flds) →
            andre2.mergeEntry acc (Json.obj flds) = Except.ok (acc ++ [flds])))
  ∧ (∀ (req : Nat → Nat → Option String) (maxRows fuel : Nat) (l : List Obj),
      andre2.iterative_search_pipeline req maxRows fuel = some (Except.ok l) →
      l.Pairwise (fun a b => andre2.entryKey a ≠ andre2.entryKey b)) := by
  constructor
  · intro acc flds
    constructor
    · intro hex
      rw [mergeEntry_obj, if_pos ((sharesKey_iff acc _).mpr hex)]
    · intro hnex
      rw [mergeEntry_obj, if_neg (fun hb => hnex ((sharesKey_iff acc _).mp hb))]
  · intro req maxRows fuel l h
    obtain ⟨full, hL, hl⟩ := iterative_ok_elim req maxRows fuel l h
    subst hl
    exact (iterLoop_pairwise fuel req maxRows [] 0 full List.Pairwise.nil hL).sublist
      (List.take_sublist _ _)

/-- Witness for C3: a concrete run in which the second batch entry duplicates
the first; the run keeps one copy of each key. -/
theorem andre2_identity_key_uniqueness_witness :
    andre2.iterative_search_pipeline reqThree 2 2
      = some (Except.ok [[("Indikation", Json.str "x")], [("Indikation", Json.str "y")]])
  ∧ List.Pairwise (fun a b => andre2.entryKey a ≠ andre2.entryKey b)
      [[("Indikation", Json.str "x")], [("Indikation", Json.str "y")]] :=
  ⟨by decide, andre2_identity_key_uniqueness.2 reqThree 2 2 _ (by decide)⟩

/-- C4: every normally terminating run returns the aggregated list truncated
to at most `max_rows` elements (`aggregated_results[:max_rows]`), in
insertion order, so its length never exceeds the target count. -/
theorem andre2_bounded_output :
    ∀ (req : Nat → Nat → Option String) (maxRows fuel : Nat) (l : List Obj),
      andre2.iterative_search_pipeline req maxRows fuel = some (Except.ok l) →
      l.length ≤ maxRows
      ∧ ∃ full : List Obj,
          andre2.iterLoop req maxRows [] 0 fuel = some (Except.ok full)
            ∧ l = full.take maxRows := by
  intro req maxRows fuel l h
  obtain ⟨full, hL, hl⟩ := iterative_ok_elim req maxRows fuel l h
  refine ⟨?_, full, hL, hl⟩
  subst hl
  rw [List.length_take]
  exact min_le_left _ _

/-- Witness for C4: a run whose every cycle fails at transport level returns
the empty list, within the bound. -/
theorem andre2_bounded_output_witness :
    andre2.iterative_search_pipeline reqFail 3 1 = some (Except.ok [])
  ∧ List.length ([] : List Obj) ≤ 3 :=
  ⟨by decide, (andre2_bounded_output reqFail 3 1 [] (by decide)).1⟩

theorem entryKey_null_of_lacks (o : Obj) (h : lacksIdKeys o = true) :
    andre2.entryKey o = (Json.null, Json.null, Json.null) := by
  simp only [lacksIdKeys, Bool.and_eq_true, Option.isNone_iff_eq_none] at h
  obtain ⟨⟨h1, h2⟩, h3⟩ := h
  simp [andre2.entryKey, pyDictGet, h1, h2, h3]

theorem pairwise_countP_lacks : ∀ l : List Obj,
    l.Pairwise (fun a b => andre2.entryKey a ≠ andre2.entryKey b) →
    l.countP lacksIdKeys ≤ 1
  | [], _ => by simp
  | o :: rest, hp => by
    rw [List.pairwise_cons] at hp
    rw [List.countP_cons]
    by_cases ho : lacksIdKeys o = true
    · rw [if_pos ho]
      have hz : rest.countP lacksIdKeys = 0 := by
        rw [List.countP_eq_zero]
        intro x hx hlx
        exact hp.1 x hx
          (by rw [entryKey_null_of_lacks o ho, entryKey_null_of_lacks x hlx])
      omega
    · rw [if_neg ho]
      have := pairwise_countP_lacks rest hp.2
      omega

/-- C10: a candidate dict that lacks identity-key fields is keyed with `None`
(JSON null) for each absent field, so any record lacking all three fields has
the key `(None, None, None)`; consequently a normally terminating run keeps
at most one such record — the first — and drops every later one as a
duplicate. -/
theorem andre2_null_key_dedup :
    (∀ o : Obj, lacksIdKeys o = true →
        andre2.entryKey o = (Json.null, Json.null, Json.null))
  ∧ (∀ (req : Nat → Nat → Option String) (maxRows fuel : Nat) (l : List Obj),
      andre2.iterative_search_pipeline req maxRows fuel = some (Except.ok l) →
      l.countP lacksIdKeys ≤ 1) := by
  refine ⟨entryKey_null_of_lacks, ?_⟩
  intro req maxRows fuel l h
  obtain ⟨full, hL, hl⟩ := iterative_ok_elim req maxRows fuel l h
  subst hl
  exact le_trans
    ((List.take_sublist maxRows full).countP_le lacksIdKeys)
    (pairwise_countP_lacks full (iterLoop_pairwise fuel req maxRows [] 0 full List.Pairwise.nil hL))

/-- Witness for C10: a batch of two keyless records; only the first is kept. -/
theorem andre2_null_key_dedup_witness :
    andre2.iterative_search_pipeline reqDup 5 1 = some (Except.ok [[]])
  ∧ List.countP lacksIdKeys [([] : Obj)] ≤ 1 :=
  ⟨by decide, andre2_null_key_dedup.2 reqDup 5 1 [[]] (by decide)⟩

theorem mergeEntries_ok_of_objs : ∀ (es : List Json) (acc : List Obj),
    (∀ e ∈ es, ∃ f : Obj, e = Json.obj f) →
    ∃ acc2, andre2.mergeEntries acc es = Except.ok acc2
  | [], acc, _ => ⟨acc, rfl⟩
  | e :: es, acc, h => by
    obtain ⟨f, hf⟩ := h e (List.mem_cons_self e es)
    subst hf
    unfold andre2.mergeEntries
    rw [mergeEntry_obj]
    by_cases hs : andre2.sharesKey acc (andre2.entryKey f) = true
    · rw [if_pos hs]
      exact mergeEntries_ok_of_objs es acc (fun x hx => h x (List.mem_cons_of_mem _ hx))
    · rw [if_neg hs]
      exact mergeEntries_ok_of_objs es (acc ++ [f]) (fun x hx => h x (List.mem_cons_of_mem _ hx))

theorem iterLoop_ok_of_objs : ∀ (fuel : Nat) (req : Nat → Nat → Option String)
    (maxRows : Nat) (acc : List Obj) (offset : Nat) (r : Except PyErr (List Obj)),
    (∀ n off s, req n off = some s →
        ∀ j, andre2.robust_extract_json s = some j → entriesAllObjs j) →
    andre2.iterLoop req maxRows acc offset fuel = some r →
    ∃ l, r = Except.ok l
  | 0, _, _, _, _, r, _, h => by
    rw [andre2.iterLoop] at h
    exact Option.noConfusion h
  | fuel + 1, req, maxRows, acc, offset, r, hreq, h => by
    rw [andre2.iterLoop] at h
    split at h
    · split at h
      · exact ⟨acc, (Option.some.inj h).symm⟩
      · rename_i entries hsp
        have hobjs : ∀ e ∈ entries, ∃ f : Obj, e = Json.obj f := by
          unfold andre2.search_pipeline at hsp
          cases hq : req (maxRows - acc.length) offset with
          | none => rw [hq] at hsp; exact Option.noConfusion hsp
          | some raw =>
            rw [hq] at hsp
            have := hreq _ _ raw hq (Json.arr entries) hsp
            simpa [entriesAllObjs] using this
        obtain ⟨acc2, hacc2⟩ := mergeEntries_ok_of_objs entries acc hobjs
        split at h
        · rename_i e2 hm
          rw [hacc2] at hm
          exact Except.noConfusion hm
        · rename_i acc2' hm
          split at h
          · exact ⟨acc2', (Option.some.inj h).symm⟩
          · exact iterLoop_ok_of_objs fuel req maxRows acc2' (offset + entries.length) r hreq h
      · exact ⟨acc, (Option.some.inj h).symm⟩
    · exact ⟨acc, (Option.some.inj h).symm⟩

/-- Amended C2: whenever every reply of the request collaborator either fails
extraction, parses to a non-list, or parses to a list whose entries are all
objects, a terminating run of `iterative_search_pipeline` returns normally (no
uncaught exception), with the truncated aggregated list as its only result —
the code returns no count of failed cycles.  (The unamended claim is refuted
by `andre2_raises_on_nonobject_batch`: a reply parsing to a list of non-dict
entries makes `entry.get` raise an uncaught `AttributeError`.) -/
theorem andre2_run_returns_normally :
    ∀ (req : Nat → Nat → Option String) (maxRows fuel : Nat)
      (r : Except PyErr (List Obj)),
      (∀ n off s, req n off = some s →
          ∀ j, andre2.robust_extract_json s = some j → entriesAllObjs j) →
      andre2.iterative_search_pipeline req maxRows fuel = some r →
      ∃ l : List Obj, r = Except.ok l := by
  intro req maxRows fuel r hreq h
  unfold andre2.iterative_search_pipeline at h
  cases hL : andre2.iterLoop req maxRows [] 0 fuel with
  | none => rw [hL] at h; exact Option.noConfusion h
  | some r0 =>
    rw [hL] at h
    obtain ⟨l0, hl0⟩ := iterLoop_ok_of_objs fuel req maxRows [] 0 r0 hreq hL
    subst hl0
    simp only [Option.map_some', Option.some.injEq] at h
    exact ⟨l0.take maxRows, h.symm⟩

/-- Counterexample to C2 as stated: a malformed reply whose text parses to
the JSON array `[1, 2]` makes the run terminate with an uncaught
`AttributeError` (from `entry.get` on an int) instead of returning a
ResultSet; no failed-cycle count is ever produced. -/
theorem andre2_raises_on_nonobject_batch :
    andre2.iterative_search_pipeline reqNums 1 1
      = some (Except.error PyErr.attributeError) := by decide

/-- Witness for the amended C2: a run whose only cycle is a transport
failure satisfies the hypothesis and returns normally with the empty
ResultSet. -/
theorem andre2_run_returns_normally_witness :
    andre2.iterative_search_pipeline reqFail 1 1 = some (Except.ok [])
  ∧ ∃ l : List Obj, (Except.ok ([] : List Obj) : Except PyErr (List Obj)) = Except.ok l :=
  ⟨by decide,
   andre2_run_returns_normally reqFail 1 1 (Except.ok [])
     (fun _ _ _ hs => by simp [reqFail] at hs) (by decide)⟩

theorem iterLoop_reqDup_stuck : ∀ (fuel offset : Nat),
    andre2.iterLoop reqDup 2 [[]] offset fuel = none
  | 0, _ => rfl
  | fuel + 1, offset => by
    have hstep : andre2.iterLoop reqDup 2 [[]] offset (fuel + 1)
        = andre2.iterLoop reqDup 2 [[]] (offset + 1) fuel := rfl
    rw [hstep]
    exact iterLoop_reqDup_stuck fuel (offset + 1)

/-- C1 (code evaluated at the failing input): `iterative_search_pipeline` has
no maximum-cycle guard, and against a request collaborator that always
returns a full-size batch of records with an already-seen identity key the
`while` loop never terminates: for every fuel bound the run is still
looping.  Each cycle receives as many raw rows as it asked for (so the
shorter-batch break never fires), yet every row is discarded as a duplicate,
so `len(aggregated_results)` stays below `max_rows` forever. -/
theorem andre2_no_cycle_guard :
    ∀ fuel : Nat, andre2.iterative_search_pipeline reqDup 2 fuel = none
  | 0 => rfl
  | fuel + 1 => by
    have hfirst : andre2.iterLoop reqDup 2 [] 0 (fuel + 1)
        = andre2.iterLoop reqDup 2 [[]] 2 fuel := rfl
    unfold andre2.iterative_search_pipeline
    rw [hfirst, iterLoop_reqDup_stuck fuel 2]
    rfl

/-- Amended C5: the extractors try their strategies in a fixed order with
first success winning, but the order has only three strategies and differs
between variants — `andre1.py`: whole stripped text, then fenced block, then
brace span; `andre2.py`: fenced block, then array bracket span (no whole-text
attempt) — and neither variant has a nested-brace scan.  In both variants a
fenced JSON block embedded in commentary is recovered whenever its content
parses. -/
theorem extractor_strategy_order :
    (∀ (s : String) (v : Json), jsonLoadsL (pyStrip s.data) = some v →
        andre1.robust_extract_json s = some v)
  ∧ (∀ (s : String) (c : List Char) (v : Json),
        jsonLoadsL (pyStrip s.data) = none →
        fencedCandidate s.data = some c → jsonLoadsL (pyStrip c) = some v →
        andre1.robust_extract_json s = some v)
  ∧ (∀ s : String, jsonLoadsL (pyStrip s.data) = none →
        ((fencedCandidate s.data).map pyStrip).bind jsonLoadsL = none →
        andre1.robust_extract_json s
          = ((braceSpanCandidate s.data).map pyStrip).bind jsonLoadsL)
  ∧ (∀ (s : String) (c : List Char) (v : Json),
        fencedCandidate (andre2.removeThinkLines s.data) = some c →
        jsonLoadsL c = some v →
        andre2.robust_extract_json s = some v)
  ∧ (∀ s : String,
        (fencedCandidate (andre2.removeThinkLines s.data)).bind jsonLoadsL = none →
        andre2.robust_extract_json s
          = (arraySpanCandidate (andre2.removeThinkLines s.data)).bind jsonLoadsL) := by
  refine ⟨?_, ?_, ?_, ?_, ?_⟩
  · intro s v h
    simp [andre1.robust_extract_json, h]
  · intro s c v h1 h2 h3
    simp [andre1.robust_extract_json, h1, h2, h3]
  · intro s h1 h2
    simp [andre1.robust_extract_json, h1, h2]
  · intro s c v h1 h2
    simp [andre2.robust_extract_json, h1, h2]
  · intro s h
    simp [andre2.robust_extract_json, h]

/-- Counterexample to C5 as stated: `andre2.robust_extract_json` has no
whole-text parse strategy — on input that is exactly a JSON object, which
`json.loads` parses as is, it returns `None` (the fenced and bracket-span
strategies both fail and nothing else is tried). -/
theorem andre2_extractor_no_whole_text_parse :
    json_loads "\x7b\"a\": 1\x7d" = some (Json.obj [("a", Json.num 1)])
  ∧ andre2.robust_extract_json "\x7b\"a\": 1\x7d" = none :=
  ⟨by decide, by decide⟩

/-- Witness for the amended C5: the spec's own scenario — a fenced JSON block
embedded in commentary, where the whole-text parse fails — is recovered by
the second strategy of `andre1.robust_extract_json`. -/
theorem extractor_strategy_order_witness :
    jsonLoadsL (pyStrip ("Here is the data:\n\x60\x60\x60json\n[\x7b\"a\":1\x7d]\n\x60\x60\x60\nThanks" : String).data) = none
  ∧ andre1.robust_extract_json
        "Here is the data:\n\x60\x60\x60json\n[\x7b\"a\":1\x7d]\n\x60\x60\x60\nThanks"
      = some (Json.arr [Json.obj [("a", Json.num 1)]]) :=
  ⟨by decide,
   extractor_strategy_order.2.1
     "Here is the data:\n\x60\x60\x60json\n[\x7b\"a\":1\x7d]\n\x60\x60\x60\nThanks"
     (("[\x7b\"a\":1\x7d]" : String).data)
     (Json.arr [Json.obj [("a", Json.num 1)]])
     (by decide) (by decide) (by decide)⟩

theorem collectStrFields_none : ∀ (ks : List String) (o : Obj) (k : String),
    k ∈ ks → andre1.getStrField o k = none → andre1.collectStrFields o ks = none
  | [], _, _, hk, _ => absurd hk (List.not_mem_nil _)
  | k' :: ks, o, k, hk, hg => by
    rcases List.mem_cons.mp hk with he | he
    · subst he
      cases hcs : andre1.collectStrFields o ks <;>
        simp [andre1.collectStrFields, hg, hcs]
    · have hrec := collectStrFields_none ks o k he hg
      cases hgf : andre1.getStrField o k' <;>
        simp [andre1.collectStrFields, hgf, hrec]

theorem model_validate_entry_none_of_missing (o : Obj) (k : String)
    (hk : k ∈ andre1.fieldNames) (hg : andre1.getStrField o k = none) :
    andre1.model_validate_entry (Json.obj o) = none := by
  have hc := collectStrFields_none andre1.fieldNames o k hk hg
  simp [andre1.model_validate_entry, hc]

theorem pyGetOpt_insert_ne : ∀ (l1 l2 : Obj) (k : String) (v : Json) (k' : String),
    k' ≠ k → pyGetOpt (l1 ++ (k, v) :: l2) k' = pyGetOpt (l1 ++ l2) k'
  | [], l2, k, v, k', hne => by
    simp only [List.nil_append]
    cases hg : pyGetOpt l2 k' with
    | some r => simp [pyGetOpt, hg]
    | none =>
      simp only [pyGetOpt, hg]
      exact if_neg (fun he => hne he.symm)
  | (a, b) :: l1, l2, k, v, k', hne => by
    simp only [List.cons_append, pyGetOpt, List.append_eq]
    rw [pyGetOpt_insert_ne l1 l2 k v k' hne]

theorem getStrField_insert_ne (l1 l2 : Obj) (k : String) (v : Json) (k' : String)
    (hne : k' ≠ k) :
    andre1.getStrField (l1 ++ (k, v) :: l2) k' = andre1.getStrField (l1 ++ l2) k' := by
  unfold andre1.getStrField
  rw [pyGetOpt_insert_ne l1 l2 k v k' hne]

theorem collectStrFields_insert_ne :
    ∀ (ks : List String) (l1 l2 : Obj) (k : String) (v : Json),
    (∀ x ∈ ks, x ≠ k) →
    andre1.collectStrFields (l1 ++ (k, v) :: l2) ks
      = andre1.collectStrFields (l1 ++ l2) ks
  | [], _, _, _, _, _ => rfl
  | k' :: ks, l1, l2, k, v, h => by
    unfold andre1.collectStrFields
    rw [getStrField_insert_ne l1 l2 k v k' (h k' (List.mem_cons_self _ _)),
        collectStrFields_insert_ne ks l1 l2 k v (fun x hx => h x (List.mem_cons_of_mem _ hx))]

/-- Amended C6: validation of a source object rejects the whole object (no
Record is produced) when any declared field is missing or not a string —
there is no empty-string defaulting, since every `PipelineEntry` field is a
required `str` with no default — while extra fields present in the source are
ignored: inserting a pair with an undeclared key anywhere leaves the
validation result unchanged.  When validation does succeed, every declared
field is present in the Record by construction. -/
theorem andre1_validation_requires_fields_ignores_extra :
    (∀ (o : Obj) (k : String), k ∈ andre1.fieldNames →
        andre1.getStrField o k = none →
        andre1.model_validate_entry (Json.obj o) = none)
  ∧ (∀ (l1 l2 : Obj) (k : String) (v : Json), k ∉ andre1.fieldNames →
        andre1.model_validate_entry (Json.obj (l1 ++ (k, v) :: l2))
          = andre1.model_validate_entry (Json.obj (l1 ++ l2))) := by
  constructor
  · exact model_validate_entry_none_of_missing
  · intro l1 l2 k v hk
    have hc := collectStrFields_insert_ne andre1.fieldNames l1 l2 k v
        (fun x hx hxk => hk (hxk ▸ hx))
    simp only [andre1.model_validate_entry, hc]

/-- Counterexample to C6 as stated: a source object carrying every declared
field except `Website` is rejected by validation (`None`), not completed
with `Website` defaulted to the empty string. -/
theorem andre1_missing_field_not_defaulted :
    andre1.model_validate_entry (Json.obj sampleMissingWebsite) = none := by decide

/-- Witness for the amended C6: the `Website`-less object is rejected, and an
undeclared extra field does not change the validation result. -/
theorem andre1_validation_requires_fields_ignores_extra_witness :
    andre1.model_validate_entry (Json.obj sampleMissingWebsite) = none
  ∧ andre1.model_validate_entry (Json.obj (sampleComplete ++ ("extra", Json.num 1) :: []))
      = andre1.model_validate_entry (Json.obj (sampleComplete ++ [])) :=
  ⟨andre1_validation_requires_fields_ignores_extra.1 sampleMissingWebsite "Website"
      (by decide) (by decide),
   andre1_validation_requires_fields_ignores_extra.2 sampleComplete [] "extra" (Json.num 1)
      (by decide)⟩

/-- Amended C7: when the fenced-block strategy yields nothing, the
`andre.py` / `updating_excel.py` extractor attempts exactly one further
candidate — the span from the first opening brace to the last closing brace —
and returns the result of parsing it; there is no nested-brace scan, so a
text whose span fails to parse yields no payload even when a shorter
balanced-brace substring is valid JSON. -/
theorem andre_no_nested_brace_scan :
    ∀ s : String, (fencedCandidate s.data).bind jsonLoadsL = none →
      andre.robust_extract_json s = (braceSpanCandidate s.data).bind jsonLoadsL := by
  intro s h
  unfold andre.robust_extract_json
  rw [h]

/-- Counterexample to C7 as stated: in the text consisting of a valid JSON
object followed by a stray closing brace, the last maximal balanced-brace
substring is the valid object, yet the extractor returns `None` because the
single first-to-last brace span does not parse and no other brace candidate
is ever tried. -/
theorem andre_last_balanced_brace_ignored :
    ("\x7b\"a\":1\x7d \x7d" : String) = "\x7b\"a\":1\x7d" ++ " \x7d"
  ∧ json_loads "\x7b\"a\":1\x7d" = some (Json.obj [("a", Json.num 1)])
  ∧ json_loads "\x7b\"a\":1\x7d \x7d" = none
  ∧ andre.robust_extract_json "\x7b\"a\":1\x7d \x7d" = none :=
  ⟨by decide, by decide, by decide, by decide⟩

/-- Witness for the amended C7 at the counterexample text. -/
theorem andre_no_nested_brace_scan_witness :
    andre.robust_extract_json "\x7b\"a\":1\x7d \x7d"
      = (braceSpanCandidate ("\x7b\"a\":1\x7d \x7d" : String).data).bind jsonLoadsL :=
  andre_no_nested_brace_scan "\x7b\"a\":1\x7d \x7d" (by decide)

theorem validateEntries_none : ∀ (l1 : List Json) (j : Json) (l2 : List Json),
    andre1.model_validate_entry j = none →
    andre1.validateEntries (l1 ++ j :: l2) = none
  | [], j, l2, h => by
    cases hv : andre1.validateEntries l2 <;>
      simp [andre1.validateEntries, h, hv]
  | e :: l1, j, l2, h => by
    have hrec := validateEntries_none l1 j l2 h
    cases he : andre1.model_validate_entry e <;>
      simp [andre1.validateEntries, he, hrec]

theorem mergeEntries_error_on_nonobj : ∀ (l1 : List Json) (acc : List Obj)
    (j : Json) (l2 : List Json),
    (∀ x ∈ l1, ∃ f : Obj, x = Json.obj f) → (∀ f : Obj, j ≠ Json.obj f) →
    andre2.mergeEntries acc (l1 ++ j :: l2) = Except.error PyErr.attributeError
  | [], acc, j, l2, _, hj => by
    unfold andre2.mergeEntries
    cases j with
    | obj f => exact absurd rfl (hj f)
    | null => rfl
    | bool b => rfl
    | num n => rfl
    | str s => rfl
    | arr es => rfl
  | x :: l1, acc, j, l2, hx, hj => by
    obtain ⟨f, hf⟩ := hx x (List.mem_cons_self x l1)
    subst hf
    simp only [List.cons_append, andre2.mergeEntries]
    rw [mergeEntry_obj]
    by_cases hs : andre2.sharesKey acc (andre2.entryKey f) = true
    · rw [if_pos hs]
      exact mergeEntries_error_on_nonobj l1 acc j l2
        (fun y hy => hx y (List.mem_cons_of_mem _ hy)) hj
    · rw [if_neg hs]
      exact mergeEntries_error_on_nonobj l1 (acc ++ [f]) j l2
        (fun y hy => hx y (List.mem_cons_of_mem _ hy)) hj

/-- Amended C8: a batch entry whose structure does not match the Record shape
is not recovered locally — in `andre1.py` one invalid entry makes the whole
batch validation fail (well-formed siblings yield nothing), and in
`andre2.py` a non-dict entry raises `AttributeError` in the merge loop,
aborting the run; sibling entries are not processed independently in either
variant. -/
theorem batch_rejected_on_malformed_entry :
    (∀ (l1 : List Json) (j : Json) (l2 : List Json),
        andre1.model_validate_entry j = none →
        andre1.model_validate (Json.arr (l1 ++ j :: l2)) = none)
  ∧ (∀ (acc : List Obj) (l1 : List Json) (j : Json) (l2 : List Json),
        (∀ x ∈ l1, ∃ f : Obj, x = Json.obj f) → (∀ f : Obj, j ≠ Json.obj f) →
        andre2.mergeEntries acc (l1 ++ j :: l2) = Except.error PyErr.attributeError) := by
  constructor
  · intro l1 j l2 h
    unfold andre1.model_validate
    exact validateEntries_none l1 j l2 h
  · intro acc l1 j l2 h1 h2
    exact mergeEntries_error_on_nonobj l1 acc j l2 h1 h2

/-- Counterexample to C8 as stated: a batch holding one fully well-formed
object and one malformed entry (`5`) validates to nothing at all — the
well-formed sibling yields no Record. -/
theorem andre1_sibling_entries_not_recovered :
    andre1.model_validate_entry (Json.obj sampleComplete) = some sampleCompleteRec
  ∧ andre1.model_validate (Json.arr [Json.obj sampleComplete, Json.num 5]) = none :=
  ⟨by decide, by decide⟩

/-- Witness for the amended C8 at concrete batches. -/
theorem batch_rejected_on_malformed_entry_witness :
    andre1.model_validate (Json.arr ([Json.obj sampleComplete] ++ Json.num 5 :: [])) = none
  ∧ andre2.mergeEntries [] ([] ++ Json.num 5 :: []) = Except.error PyErr.attributeError :=
  ⟨batch_rejected_on_malformed_entry.1 [Json.obj sampleComplete] (Json.num 5) [] (by decide),
   batch_rejected_on_malformed_entry.2 [] [] (Json.num 5) []
     (fun x hx => absurd hx (List.not_mem_nil x)) (fun f h => Json.noConfusion h)⟩

/-- Amended C9: the Text Normalizer never fails (it is a total function), and
every line of its output is a line of the input whose stripped form does not
start with the `<think>` marker — marker lines are removed; the output is
not, however, trimmed of leading or trailing whitespace. -/
theorem andre2_normalizer_drops_marker_lines :
    ∀ (s : String) (l : List Char),
      l ∈ pySplitlines (andre2.normalizeText s).data →
      l ∈ pySplitlines s.data ∧ startsWithL (pyStrip l) thinkMarker = false := by
  intro s l hl
  have hdata : (andre2.normalizeText s).data = andre2.removeThinkLines s.data := rfl
  rw [hdata] at hl
  unfold andre2.removeThinkLines at hl
  have hkept := splitlines_joinNL_subset
      ((pySplitlines s.data).filter (fun l => !(startsWithL (pyStrip l) thinkMarker)))
      (fun x hx => splitlines_break_free s.data x (List.mem_filter.mp hx).1) l hl
  have hmem := List.mem_filter.mp hkept
  exact ⟨hmem.1, by simpa using hmem.2⟩

/-- Counterexample to C9 as stated: the normalizer removes the marker line
but does not trim the remaining text — the output keeps its leading and
trailing whitespace. -/
theorem andre2_normalizer_output_not_trimmed :
    andre2.normalizeText "  <think> hi\n  [1] " = "  [1] "
  ∧ pyStrip ("  [1] " : String).data ≠ ("  [1] " : String).data :=
  ⟨by decide, by decide⟩

/-- Witness for the amended C9: on an input with one marker line and one
payload line, the payload line survives and is marker-free. -/
theorem andre2_normalizer_drops_marker_lines_witness :
    (['x'] ∈ pySplitlines (andre2.normalizeText "<think> a\nx").data)
  ∧ ['x'] ∈ pySplitlines ("<think> a\nx" : String).data
  ∧ startsWithL (pyStrip ['x']) thinkMarker = false :=
  ⟨by decide,
   (andre2_normalizer_drops_marker_lines "<think> a\nx" ['x'] (by decide)).1,
   (andre2_normalizer_drops_marker_lines "<think> a\nx" ['x'] (by decide)).2⟩
